import Mathlib

/-!
Verification of "The Great Clown" generative-art sketches.

The repository contains several variants of the same sketch.  We embed the
numeric core of each variant that the specification talks about:

* `Clown.PRNG` — the linear-congruential generator shared by all variants
  (`src/the_great_clown_fresh.js` lines 12-45, `src/unnamed/part_003` lines 5-37).
* `Clown.Fresh1` — the first sketch in `src/the_great_clown_fresh.js`
  (compression factor at lines 438-446, grid compression at 385-436,
  density insertion at 308-378).
* `Clown.Fresh2` — the second sketch in `src/the_great_clown_fresh.js`
  (grid builder at lines 720-783, compression factor at 785-792,
  cell rendering at 809-828).
* `Clown.Part1` — `src/unnamed/part_001` (grid builder at 133-161,
  compression factor at 184-205, grid compression at 207-231).
* `Clown.Part2` — `src/unnamed/part_002` (compression factor at 2147-2168,
  grid compression at 2171-2225, brush pressure at 751-770).

JavaScript numbers are modelled as real numbers (the claims under study are
exact algebraic facts, not rounding facts); the PRNG, which only ever performs
exact integer and dyadic-rational arithmetic, is modelled over `ℕ` and `ℚ`.
Randomness (jitter, gaps, Gaussian noise) enters every function as an explicit
parameter, so every theorem quantifies over all possible random draws.
-/

namespace Clown

/-! ### p5.js numeric primitives used by the sketches -/

/-- p5.js `lerp(start, stop, amt) = amt * (stop - start) + start`. -/
noncomputable def lerp (start stop amt : ℝ) : ℝ := start + amt * (stop - start)

/-- p5.js `constrain(n, low, high) = Math.max(Math.min(n, high), low)`. -/
noncomputable def constrain (n low high : ℝ) : ℝ := max (min n high) low

/-- p5.js `dist(x1, y1, x2, y2)` — Euclidean distance. -/
noncomputable def distPt (x1 y1 x2 y2 : ℝ) : ℝ :=
  Real.sqrt ((x2 - x1) ^ 2 + (y2 - y1) ^ 2)

/-- p5.js `map(value, start1, stop1, start2, stop2)` (no clamping). -/
noncomputable def mapRange (value start1 stop1 start2 stop2 : ℝ) : ℝ :=
  (value - start1) / (stop1 - start1) * (stop2 - start2) + start2

/-! ### The PRNG class (identical in `the_great_clown_fresh.js` and `part_003`) -/

/-- The `PRNG` class: `seed` is fixed at construction, `state` evolves. -/
structure PRNG where
  seed : ℕ
  state : ℕ
  deriving DecidableEq

namespace PRNG

/-- The LCG step `state = (state * 1664525 + 1013904223) % 4294967296`. -/
def nextState (s : ℕ) : ℕ := (s * 1664525 + 1013904223) % 4294967296

/-- `next()` — advances the state and returns `state / 4294967296`. -/
def next (p : PRNG) : PRNG × ℚ :=
  ⟨⟨p.seed, nextState p.state⟩, (nextState p.state : ℚ) / 4294967296⟩

/-- `random(min, max) = min + this.next() * (max - min)`. -/
def random (p : PRNG) (lo hi : ℚ) : PRNG × ℚ :=
  ⟨(p.next).1, lo + (p.next).2 * (hi - lo)⟩

/-- `randomInt(min, max) = Math.floor(this.random(min, max + 1))`. -/
def randomInt (p : PRNG) (lo hi : ℚ) : PRNG × ℤ :=
  ⟨(p.random lo (hi + 1)).1, ⌊(p.random lo (hi + 1)).2⌋⟩

/-- `randomChoice(array) = array[this.randomInt(0, array.length - 1)]`
(out-of-range indexing would yield `undefined`, modelled by `none`). -/
def randomChoice {α : Type} (p : PRNG) (arr : List α) : PRNG × Option α :=
  ⟨(p.randomInt 0 ((arr.length : ℚ) - 1)).1,
   arr[(p.randomInt 0 ((arr.length : ℚ) - 1)).2.toNat]?⟩

end PRNG

/-! ### First sketch of `the_great_clown_fresh.js` (`Fresh1`) -/

namespace Fresh1

/-- `getCompressionFactor(distance)` (lines 438-446): `0.0` at normalized
distance `≥ 1`, otherwise `pow(1 - nd, falloff) * 0.4`.  Here a *larger*
factor means *more* movement (`lerp(x, focal, factor)`). -/
noncomputable def getCompressionFactor (radius falloff distance : ℝ) : ℝ :=
  if 1 ≤ distance / radius then 0
  else (1 - distance / radius) ^ falloff * 0.4

/-- `Config.compressionRadius` of the first fresh sketch. -/
noncomputable def compressionRadius : ℝ := 400

/-- `Config.compressionFalloff` of the first fresh sketch. -/
noncomputable def compressionFalloff : ℝ := 0.8

/-- `Config.horizontalDensityMultiplier`. -/
noncomputable def horizontalDensityMultiplier : ℝ := 8

/-- `Config.verticalDensityMultiplier`. -/
noncomputable def verticalDensityMultiplier : ℝ := 12

/-- The update of `gridX` performed by `applyCompressionToGrid`
(lines 394-412): lines with index `i` satisfying `2 ≤ i < length - 2` that lie
within the compression radius move toward the focal point by
`lerp(x, focalPoint.x, factor)` and are clamped to the margins
`[20, width - 20]`; all other lines are untouched.  The distance of an x-line
is measured by `dist(gridX[i], focalPoint.y, focalPoint.x, focalPoint.y)`.
The update of `gridY` (lines 414-432) is the same algorithm with the axes
swapped. -/
noncomputable def applyCompressionToGridX (w fx fy radius falloff : ℝ)
    (grid : List ℝ) : List ℝ :=
  grid.mapIdx fun i p =>
    if 2 ≤ i ∧ i + 2 < grid.length ∧ distPt p fy fx fy < radius then
      constrain (lerp p fx (getCompressionFactor radius falloff (distPt p fy fx fy)))
        20 (w - 20)
    else p

/-- The y-axis counterpart of `applyCompressionToGridX` (lines 414-432). -/
noncomputable def applyCompressionToGridY (h fx fy radius falloff : ℝ)
    (grid : List ℝ) : List ℝ :=
  grid.mapIdx fun j p =>
    if 2 ≤ j ∧ j + 2 < grid.length ∧ distPt fx p fx fy < radius then
      constrain (lerp p fy (getCompressionFactor radius falloff (distPt fx p fx fy)))
        20 (h - 20)
    else p

/-- The extra lines `applyCompressionDensity` inserts into one cell
`[x1, x2]` of `gridX` (lines 317-334): if the cell midpoint is within the
compression radius, `Math.floor(factor * multiplier)` lines are created at
`lerp(x1, x2, j / (count + 1))` for `j = 1 .. count`. -/
noncomputable def extraLinesForCell (fx fy radius falloff mult x1 x2 : ℝ) : List ℝ :=
  let midX := (x1 + x2) / 2
  let distance := distPt midX fy fx fy
  if distance < radius then
    let count := (⌊getCompressionFactor radius falloff distance * mult⌋).toNat
    (List.range count).map fun (j : ℕ) => lerp x1 x2 (((j : ℝ) + 1) / ((count : ℝ) + 1))
  else []

/-- All extra x-lines produced by `applyCompressionDensity` (lines 314-335).
The loop runs `for (let i = 2; i < gridX.length - 3; i++)`, skipping the first
two and the last three lines. -/
noncomputable def additionalLinesX (fx fy radius falloff mult : ℝ)
    (grid : List ℝ) : List ℝ :=
  ((List.range grid.length).filter fun i => 2 ≤ i ∧ i + 3 < grid.length).flatMap
    fun i => extraLinesForCell fx fy radius falloff mult (grid.getD i 0) (grid.getD (i + 1) 0)

/-- The y-axis counterpart of `extraLinesForCell` (lines 339-358): the distance
of a y-cell midpoint is `dist(focalPoint.x, midY, focalPoint.x, focalPoint.y)`. -/
noncomputable def extraLinesForCellY (fx fy radius falloff mult y1 y2 : ℝ) : List ℝ :=
  let midY := (y1 + y2) / 2
  let distance := distPt fx midY fx fy
  if distance < radius then
    let count := (⌊getCompressionFactor radius falloff distance * mult⌋).toNat
    (List.range count).map fun (k : ℕ) => lerp y1 y2 (((k : ℝ) + 1) / ((count : ℝ) + 1))
  else []

/-- All extra y-lines produced by `applyCompressionDensity` (lines 339-358). -/
noncomputable def additionalLinesY (fx fy radius falloff mult : ℝ)
    (grid : List ℝ) : List ℝ :=
  ((List.range grid.length).filter fun j => 2 ≤ j ∧ j + 3 < grid.length).flatMap
    fun j => extraLinesForCellY fx fy radius falloff mult (grid.getD j 0) (grid.getD (j + 1) 0)

/-- `applyCompressionDensity`'s effect on `gridX` up to and including the sort
(lines 360-372): push all extra lines, then `gridX.sort((a, b) => a - b)`. -/
noncomputable def densityGridX (fx fy radius falloff mult : ℝ) (grid : List ℝ) : List ℝ :=
  List.insertionSort (· ≤ ·) (grid ++ additionalLinesX fx fy radius falloff mult grid)

/-- The y-axis counterpart of `densityGridX`. -/
noncomputable def densityGridY (fx fy radius falloff mult : ℝ) (grid : List ℝ) : List ℝ :=
  List.insertionSort (· ≤ ·) (grid ++ additionalLinesY fx fy radius falloff mult grid)

/-- The full `applyCompressionDensity` pipeline on the x-axis: insert the extra
lines, sort, and only then compress (`applyCompressionToGrid()` is called at
line 375, after the sort at line 371). -/
noncomputable def applyCompressionDensityX (w fx fy radius falloff mult : ℝ)
    (grid : List ℝ) : List ℝ :=
  applyCompressionToGridX w fx fy radius falloff (densityGridX fx fy radius falloff mult grid)

end Fresh1

/-! ### Second sketch of `the_great_clown_fresh.js` (`Fresh2`) -/

namespace Fresh2

/-- `getCompressionFactor(distance)` (lines 785-792): `0.0` at normalized
distance `≥ 1`, otherwise `compressionStrength * pow(1 - nd, falloff)`. -/
noncomputable def getCompressionFactor (radius falloff strength distance : ℝ) : ℝ :=
  if 1 ≤ distance / radius then 0
  else strength * (1 - distance / radius) ^ falloff

/-- `Config.compressionRadius` of the second fresh sketch. -/
noncomputable def compressionRadius : ℝ := 200

/-- `Config.compressionStrength` of the second fresh sketch. -/
noncomputable def compressionStrength : ℝ := 3

/-- `Config.compressionFalloff` of the second fresh sketch. -/
noncomputable def compressionFalloff : ℝ := 1

/-- One x grid line of `buildGrid` (lines 737-756): nominal gutter-spaced
position, plus jitter, then moved by `lerp(x, focalPoint.x, factor)` when the
compression radius is positive and `dist(x, height/2, fx, fy)` is inside it. -/
noncomputable def gridLineX (w h fx fy radius falloff strength : ℝ)
    (cols : ℕ) (jitter : ℝ) (i : ℕ) : ℝ :=
  let gutterX := w * 0.05
  let cellWidth := (w - gutterX * (cols + 1)) / cols
  let x := gutterX + i * (cellWidth + gutterX) + jitter
  if 0 < radius ∧ distPt x (h / 2) fx fy < radius then
    lerp x fx (getCompressionFactor radius falloff strength (distPt x (h / 2) fx fy))
  else x

/-- The `gridX` array built by `buildGrid` (lines 737-756):
`for (let i = 0; i <= Config.gridCols; i++) gridX.push(...)`. -/
noncomputable def buildGridX (w h fx fy radius falloff strength : ℝ)
    (cols : ℕ) (jitter : ℕ → ℝ) : List ℝ :=
  (List.range (cols + 1)).map fun i =>
    gridLineX w h fx fy radius falloff strength cols (jitter i) i

/-- One y grid line of `buildGrid` (lines 759-778). -/
noncomputable def gridLineY (w h fx fy radius falloff strength : ℝ)
    (rows : ℕ) (jitter : ℝ) (j : ℕ) : ℝ :=
  let gutterY := h * 0.05
  let cellHeight := (h - gutterY * (rows + 1)) / rows
  let y := gutterY + j * (cellHeight + gutterY) + jitter
  if 0 < radius ∧ distPt (w / 2) y fx fy < radius then
    lerp y fy (getCompressionFactor radius falloff strength (distPt (w / 2) y fx fy))
  else y

/-- The `gridY` array built by `buildGrid` (lines 759-778). -/
noncomputable def buildGridY (w h fx fy radius falloff strength : ℝ)
    (rows : ℕ) (jitter : ℕ → ℝ) : List ℝ :=
  (List.range (rows + 1)).map fun j =>
    gridLineY w h fx fy radius falloff strength rows (jitter j) j

/-- Number of cells drawn by `renderGrid` (lines 815-827): one cell per pair of
consecutive x and y lines, drawn only when the width and height are positive. -/
noncomputable def renderedCellCount (gridX gridY : List ℝ) : ℕ :=
  ((List.range (gridX.length - 1)).flatMap fun i =>
    (List.range (gridY.length - 1)).map fun j => (i, j)).countP fun ij =>
      decide (0 < gridX.getD (ij.1 + 1) 0 - gridX.getD ij.1 0) &&
      decide (0 < gridY.getD (ij.2 + 1) 0 - gridY.getD ij.2 0)

end Fresh2

/-! ### `src/unnamed/part_001` (`Part1`) -/

namespace Part1

/-- `getCompressionFactor(x, y)` (lines 184-205).  Here a *smaller* factor
means *more* movement (`lerp(x, focal, 1 - factor)`); `1.0` means no change.
Two-zone gradient: inside a quarter of the radius the factor ramps from `0.3`
to `0.7`; outside it a power-law falloff ramps from `0.7` back to `1.0`. -/
noncomputable def getCompressionFactor (cx cy radius strength falloff x y : ℝ) : ℝ :=
  if strength = 0 then 1
  else
    let nd := distPt x y cx cy / radius
    if 1 ≤ nd then 1
    else if nd ≤ 0.25 then constrain (0.3 + 0.4 * (nd / 0.25)) 0.3 0.7
    else constrain (0.7 + 0.3 * (1 - (nd - 0.25) / 0.75) ^ falloff) 0.7 1

/-- `applyCompressionToGrid` on `gridX` (lines 207-219, 229): every line is
replaced by `lerp(x, compressionCenter.x, 1 - factor)`, with factor evaluated
at `(x, compressionCenter.y)`; a disabled or zero-strength compression leaves
the grid alone. -/
noncomputable def applyCompressionToGridX (cx cy radius strength falloff : ℝ)
    (enable : Bool) (grid : List ℝ) : List ℝ :=
  if enable = false ∨ strength = 0 then grid
  else grid.map fun p =>
    lerp p cx (1 - getCompressionFactor cx cy radius strength falloff p cy)

/-- `buildGrid`'s `gridX` (lines 134-145) *before* the compression step:
`gridX = [0]`, then `cols` times `gridX.push(gridX[i] + tileW + jitter_i)`,
and finally `gridX[gridX.length - 1] = width`. -/
noncomputable def buildGridLinesX (w : ℝ) (cols : ℕ) (jitter : ℕ → ℝ) : List ℝ :=
  let gutterX := w * 0.08
  let tileW := (w - gutterX * (cols + 1)) / cols
  let l := (List.range cols).scanl (fun acc i => acc + tileW + jitter i) 0
  l.set (l.length - 1) w

/-- The full `buildGrid` x result including the compression step
(lines 158-160). -/
noncomputable def buildGridX (w cx cy radius strength falloff : ℝ) (enable : Bool)
    (cols : ℕ) (jitter : ℕ → ℝ) : List ℝ :=
  applyCompressionToGridX cx cy radius strength falloff enable (buildGridLinesX w cols jitter)

end Part1

/-! ### `src/unnamed/part_002` (`Part2`) -/

namespace Part2

/-- `getCompressionFactor(x, y)` (lines 2147-2168): `1.0` outside the radius,
`0.001` inside the core quarter, otherwise a falloff from `1.0` down to
`0.001`.  As in `Part1`, `1.0` means "no change". -/
noncomputable def getCompressionFactor (cx cy radius strength falloff x y : ℝ) : ℝ :=
  if strength = 0 then 1
  else
    let nd := distPt x y cx cy / radius
    if 1 ≤ nd then 1
    else if nd ≤ 0.25 then 0.001
    else constrain (0.001 + 0.999 * (1 - (nd - 0.25) / 0.75) ^ falloff) 0.001 1

/-- `applyCompressionToGrid` on `gridX` (lines 2171-2201): each line moves
*away* from the focal point by
`x + direction * abs(x - cx) * (1 - factor)` where `direction` is `1` when
`x > cx` and `-1` otherwise. -/
noncomputable def applyCompressionToGridX (cx cy radius strength falloff : ℝ)
    (enable : Bool) (grid : List ℝ) : List ℝ :=
  if enable = false ∨ strength = 0 then grid
  else grid.map fun p =>
    p + (if cx < p then 1 else -1) * |p - cx| *
      (1 - getCompressionFactor cx cy radius strength falloff p cy)

end Part2

/-! ### Brush pressure (`src/unnamed/part_002`, lines 751-770) -/

namespace BrushPressure

/-- `BrushPressure.curve = [0.15, 0.2]` — `[start, end]` pressure factors. -/
noncomputable def curve : ℝ × ℝ := (0.15, 0.2)

/-- `BrushPressure.min_max = [1.2, 0.9]` — the configured pressure bounds
(note that the entry labelled `min` is the larger one; `constrain` is called
as `constrain(pressure, min_max[1], min_max[0])`). -/
noncomputable def min_max : ℝ × ℝ := (1.2, 0.9)

/-- `BrushPressure.calculate(progress, length)` (lines 757-762). -/
noncomputable def calculate (progress length : ℝ) : ℝ :=
  let t := progress / length
  let pressureCurve := curve.1 + (curve.2 - curve.1) * t
  let pressure := mapRange pressureCurve 0 1 min_max.1 min_max.2
  constrain pressure min_max.2 min_max.1

/-- `BrushPressure.gaussian(progress, length, variation)` (lines 765-769);
the Gaussian sample `randomGaussian(0, variation)` is an explicit argument. -/
noncomputable def gaussian (progress length gaussianVariation : ℝ) : ℝ :=
  constrain (calculate progress length + gaussianVariation) min_max.2 min_max.1

end BrushPressure

/-! ### Theorems about the numeric primitives -/

theorem constrain_le (n low high : ℝ) (h : low ≤ high) :
    constrain n low high ≤ high := by
  simp only [constrain, max_le_iff]
  exact ⟨min_le_right _ _, h⟩

theorem le_constrain (n low high : ℝ) : low ≤ constrain n low high :=
  le_max_right _ _

theorem distPt_same_y (a c b : ℝ) : distPt a c b c = |b - a| := by
  simp [distPt, Real.sqrt_sq_eq_abs]

theorem distPt_same_x (c a b : ℝ) : distPt c a c b = |b - a| := by
  simp [distPt, Real.sqrt_sq_eq_abs]

theorem distPt_self (a b : ℝ) : distPt a b a b = 0 := by
  simp [distPt]

theorem lerp_same (p t : ℝ) : lerp p p t = p := by simp [lerp]

theorem lerp_zero (a b : ℝ) : lerp a b 0 = a := by simp [lerp]

/-- `lerp a b t` lies between `a` and `b` when `t ∈ [0, 1]`. -/
theorem lerp_mem_Icc {a b t : ℝ} (h0 : 0 ≤ t) (h1 : t ≤ 1) :
    min a b ≤ lerp a b t ∧ lerp a b t ≤ max a b := by
  unfold lerp
  rcases le_total a b with hab | hab
  · rw [min_eq_left hab, max_eq_right hab]
    constructor
    · nlinarith [mul_nonneg h0 (sub_nonneg.mpr hab)]
    · nlinarith [mul_le_mul_of_nonneg_right h1 (sub_nonneg.mpr hab)]
  · rw [min_eq_right hab, max_eq_left hab]
    constructor
    · nlinarith [mul_le_mul_of_nonneg_right h1 (sub_nonneg.mpr hab)]
    · nlinarith [mul_nonneg h0 (sub_nonneg.mpr hab)]

/-! ### Theorems about the PRNG -/

namespace PRNG

theorem next_val_nonneg (p : PRNG) : 0 ≤ (p.next).2 := by
  unfold next
  positivity

theorem next_val_lt_one (p : PRNG) : (p.next).2 < 1 := by
  unfold next
  rw [div_lt_one (by norm_num)]
  have h : nextState p.state < 4294967296 := Nat.mod_lt _ (by norm_num)
  exact_mod_cast h

theorem next_state_lt (p : PRNG) : ((p.next).1).state < 4294967296 :=
  Nat.mod_lt _ (by norm_num)

theorem random_mem {p : PRNG} {lo hi : ℚ} (h : lo < hi) :
    lo ≤ (p.random lo hi).2 ∧ (p.random lo hi).2 < hi := by
  unfold random
  constructor
  · have := mul_nonneg (next_val_nonneg p) (by linarith : (0:ℚ) ≤ hi - lo)
    simpa using this
  · have hu := next_val_lt_one p
    have hm : (p.next).2 * (hi - lo) < 1 * (hi - lo) :=
      mul_lt_mul_of_pos_right hu (by linarith)
    simp only []
    linarith

theorem random_same (p : PRNG) (lo : ℚ) : (p.random lo lo).2 = lo := by
  unfold random
  ring_nf

theorem randomInt_mem (p : PRNG) (lo hi : ℤ) (h : lo ≤ hi) :
    lo ≤ (p.randomInt lo hi).2 ∧ (p.randomInt lo hi).2 ≤ hi := by
  unfold randomInt
  have hlt : (lo : ℚ) < (hi : ℚ) + 1 := by
    have : (lo : ℚ) ≤ hi := by exact_mod_cast h
    linarith
  obtain ⟨h1, h2⟩ := random_mem (p := p) hlt
  constructor
  · exact Int.le_floor.mpr h1
  · have hfl : (⌊(p.random lo (hi + 1)).2⌋ : ℤ) < hi + 1 := by
      rw [Int.floor_lt]
      push_cast
      exact h2
    omega

theorem randomChoice_mem {α : Type} (p : PRNG) (arr : List α) (h : arr ≠ []) :
    ∃ a ∈ arr, (p.randomChoice arr).2 = some a := by
  have hlen : 1 ≤ arr.length := List.length_pos.mpr h
  have hle : (0 : ℤ) ≤ (arr.length : ℤ) - 1 := by omega
  obtain ⟨h1, h2⟩ := randomInt_mem p 0 ((arr.length : ℤ) - 1) hle
  have harg : ((((arr.length : ℤ) - 1 : ℤ)) : ℚ) = (arr.length : ℚ) - 1 := by
    push_cast
    ring
  have harg0 : (((0 : ℤ)) : ℚ) = (0 : ℚ) := by norm_num
  rw [harg, harg0] at h1 h2
  have hidx : ((p.randomInt 0 ((arr.length : ℚ) - 1)).2).toNat < arr.length := by
    omega
  exact ⟨arr[((p.randomInt 0 ((arr.length : ℚ) - 1)).2).toNat],
    List.getElem_mem hidx, List.getElem?_eq_getElem hidx⟩

end PRNG

/-! ### Bounds on the compression factors -/

namespace Part1

/-- `Part1.getCompressionFactor` always lies in `[0.3, 1]`. -/
theorem part1_factor_mem (cx cy radius strength falloff x y : ℝ) :
    0.3 ≤ getCompressionFactor cx cy radius strength falloff x y ∧
    getCompressionFactor cx cy radius strength falloff x y ≤ 1 := by
  simp only [getCompressionFactor]
  split
  · norm_num
  · split
    · norm_num
    · split
      · exact ⟨le_constrain _ _ _,
          le_trans (constrain_le _ _ _ (by norm_num)) (by norm_num)⟩
      · exact ⟨le_trans (by norm_num) (le_constrain _ _ _),
          constrain_le _ _ _ (by norm_num)⟩

/-- Outside the compression radius the factor is `1.0` (no change). -/
theorem part1_factor_far {cx cy radius strength falloff x y : ℝ}
    (hr : 0 < radius) (hd : radius ≤ distPt x y cx cy) :
    getCompressionFactor cx cy radius strength falloff x y = 1 := by
  simp only [getCompressionFactor]
  split
  · rfl
  · rw [if_pos ((one_le_div hr).mpr hd)]

/-- At the focal point itself the factor is `0.3`, the bottom of its range. -/
theorem part1_factor_center {cx cy radius strength falloff : ℝ}
    (hs : ¬ strength = 0) : getCompressionFactor cx cy radius strength falloff cx cy = 0.3 := by
  simp only [getCompressionFactor, distPt_self]
  rw [if_neg hs, zero_div, if_neg (by norm_num), if_pos (by norm_num)]
  rw [zero_div, mul_zero, add_zero, constrain, min_eq_left (by norm_num), max_self]

end Part1

namespace Part2

/-- `Part2.getCompressionFactor` always lies in `[0.001, 1]`. -/
theorem part2_factor_mem (cx cy radius strength falloff x y : ℝ) :
    0.001 ≤ getCompressionFactor cx cy radius strength falloff x y ∧
    getCompressionFactor cx cy radius strength falloff x y ≤ 1 := by
  simp only [getCompressionFactor]
  split
  · norm_num
  · split
    · norm_num
    · split
      · norm_num
      · exact ⟨le_constrain _ _ _, constrain_le _ _ _ (by norm_num)⟩

end Part2

namespace Fresh1

/-- At distance at least the radius the factor is `0.0` (no change here:
the fresh sketches move by `lerp(x, focal, factor)`). -/
theorem fresh1_factor_far {radius falloff d : ℝ}
    (hr : 0 < radius) (hd : radius ≤ d) :
    getCompressionFactor radius falloff d = 0 := by
  unfold getCompressionFactor
  rw [if_pos ((one_le_div hr).mpr hd)]

/-- At distance `0` the factor is `0.4`, the top of its range. -/
theorem fresh1_factor_zero {radius : ℝ} (falloff : ℝ) (_hr : 0 < radius) :
    getCompressionFactor radius falloff 0 = 0.4 := by
  unfold getCompressionFactor
  rw [zero_div, if_neg (by norm_num), sub_zero, Real.one_rpow, one_mul]

/-- `Fresh1.getCompressionFactor` lies in `[0, 0.4]`. -/
theorem fresh1_factor_mem {radius falloff d : ℝ}
    (hr : 0 < radius) (hf : 0 ≤ falloff) (hd : 0 ≤ d) :
    0 ≤ getCompressionFactor radius falloff d ∧
    getCompressionFactor radius falloff d ≤ 0.4 := by
  unfold getCompressionFactor
  split
  · norm_num
  · rename_i h
    push_neg at h
    have h0 : 0 ≤ d / radius := div_nonneg hd hr.le
    have h1 : 0 ≤ 1 - d / radius := by linarith
    have h2 : 1 - d / radius ≤ 1 := by linarith
    have hpow0 : 0 ≤ (1 - d / radius) ^ falloff := Real.rpow_nonneg h1 falloff
    have hpow1 : (1 - d / radius) ^ falloff ≤ 1 := Real.rpow_le_one h1 h2 hf
    constructor
    · nlinarith
    · nlinarith

end Fresh1

namespace Fresh2

/-- At distance at least the radius the factor is `0.0`. -/
theorem fresh2_factor_far {radius falloff strength d : ℝ}
    (hr : 0 < radius) (hd : radius ≤ d) :
    getCompressionFactor radius falloff strength d = 0 := by
  unfold getCompressionFactor
  rw [if_pos ((one_le_div hr).mpr hd)]

/-- At distance `0` the factor equals `compressionStrength`. -/
theorem fresh2_factor_zero {radius : ℝ} (falloff strength : ℝ) (_hr : 0 < radius) :
    getCompressionFactor radius falloff strength 0 = strength := by
  unfold getCompressionFactor
  rw [zero_div, if_neg (by norm_num), sub_zero, Real.one_rpow, mul_one]

/-- `Fresh2.getCompressionFactor` lies in `[0, strength]`. -/
theorem fresh2_factor_mem {radius falloff strength d : ℝ}
    (hr : 0 < radius) (hf : 0 ≤ falloff) (hd : 0 ≤ d) (hs : 0 ≤ strength) :
    0 ≤ getCompressionFactor radius falloff strength d ∧
    getCompressionFactor radius falloff strength d ≤ strength := by
  unfold getCompressionFactor
  split
  · exact ⟨le_refl 0, hs⟩
  · rename_i h
    push_neg at h
    have h0 : 0 ≤ d / radius := div_nonneg hd hr.le
    have h1 : 0 ≤ 1 - d / radius := by linarith
    have h2 : 1 - d / radius ≤ 1 := by linarith
    have hpow0 : 0 ≤ (1 - d / radius) ^ falloff := Real.rpow_nonneg h1 falloff
    have hpow1 : (1 - d / radius) ^ falloff ≤ 1 := Real.rpow_le_one h1 h2 hf
    exact ⟨mul_nonneg hs hpow0, mul_le_of_le_one_right hs hpow1⟩

end Fresh2

/-! ### List helpers -/

theorem flatMap_const_nil {α β : Type} (l : List α) :
    (l.flatMap fun _ => ([] : List β)) = [] := by
  induction l with
  | nil => rfl
  | cons a t ih => simpa using ih

theorem getD_mapIdx {α : Type} [Inhabited α] (l : List α) (f : ℕ → α → α) (i : ℕ)
    (hi : i < l.length) (d : α) :
    (l.mapIdx f).getD i d = f i (l.getD i d) := by
  rw [List.getD_eq_getElem _ _ (by simpa using hi), List.getD_eq_getElem _ _ hi]
  have h := List.get_mapIdx l f i hi
  simpa using h

theorem getElem_scanl_zero {α β : Type} (f : β → α → β) (b : β) (l : List α)
    (h : 0 < (List.scanl f b l).length) : (List.scanl f b l).getD 0 b = b := by
  cases l <;> rfl

/-! ### Lengths of the grid builders -/

namespace Part1

theorem buildGridLinesX_length (w : ℝ) (cols : ℕ) (jitter : ℕ → ℝ) :
    (buildGridLinesX w cols jitter).length = cols + 1 := by
  simp [buildGridLinesX, List.length_scanl]

theorem buildGridX_length (w cx cy radius strength falloff : ℝ) (enable : Bool)
    (cols : ℕ) (jitter : ℕ → ℝ) :
    (buildGridX w cx cy radius strength falloff enable cols jitter).length = cols + 1 := by
  unfold buildGridX applyCompressionToGridX
  split
  · exact buildGridLinesX_length w cols jitter
  · simpa using buildGridLinesX_length w cols jitter

end Part1

/-! ### Claim C8 -/

/-- C8: with zero grid rows the fresh sketch's `buildGrid` still produces a
(single-element) `gridY` and `renderGrid` draws no cells, for every canvas
size, focal point, compression configuration and jitter; `part_001`'s builder
likewise degenerates to a single line.  All functions are total, so the
degenerate configuration takes no error, recovery or user-facing error path. -/
theorem C8_zero_rows_empty_geometry (w h fx fy cx cy radius falloff strength : ℝ)
    (enable : Bool) (cols : ℕ) (jx jy jp : ℕ → ℝ) :
    (Fresh2.buildGridY w h fx fy radius falloff strength 0 jy).length = 1 ∧
    Fresh2.renderedCellCount (Fresh2.buildGridX w h fx fy radius falloff strength cols jx)
      (Fresh2.buildGridY w h fx fy radius falloff strength 0 jy) = 0 ∧
    (Part1.buildGridX w cx cy radius strength falloff enable 0 jp).length = 1 := by
  have hY : (Fresh2.buildGridY w h fx fy radius falloff strength 0 jy).length = 1 := by
    simp [Fresh2.buildGridY]
  refine ⟨hY, ?_, Part1.buildGridX_length w cx cy radius strength falloff enable 0 jp⟩
  unfold Fresh2.renderedCellCount
  rw [hY]
  norm_num

/-- Witness for C8 at a concrete configuration. -/
theorem C8_zero_rows_empty_geometry_witness :
    (Fresh2.buildGridY 800 1200 400 600 200 1 3 0 fun _ => 0).length = 1 ∧
    Fresh2.renderedCellCount (Fresh2.buildGridX 800 1200 400 600 200 1 3 15 fun _ => 0)
      (Fresh2.buildGridY 800 1200 400 600 200 1 3 0 fun _ => 0) = 0 ∧
    (Part1.buildGridX 800 400 600 200 3 1 true 0 fun _ => 0).length = 1 :=
  C8_zero_rows_empty_geometry 800 1200 400 600 400 600 200 1 3 true 15
    (fun _ => 0) (fun _ => 0) (fun _ => 0)

/-! ### Claim C3 -/

/-- C3 counterexample: the fresh sketch's grid builder does *not* place its
first line at 0.  With the configured canvas (800 wide), 15 columns, zero
jitter and a focal point far from the left edge, the first x-line sits at the
gutter offset `800 * 0.05 = 40`, not at `0`. -/
theorem C3_counterexample :
    (Fresh2.buildGridX 800 1200 400 600 200 1 3 15 fun _ => 0).getD 0 0 = 40 ∧
    (40 : ℝ) ≠ 0 := by
  constructor
  · unfold Fresh2.buildGridX
    rw [List.getD_eq_getElem _ _ (by simp)]
    rw [List.getElem_map, List.getElem_range]
    unfold Fresh2.gridLineX
    norm_num
    intro hlt
    rw [distPt_same_y] at hlt
    rw [abs_of_nonneg (by norm_num : (0:ℝ) ≤ 400 - 40)] at hlt
    norm_num at hlt
  · norm_num

/-- C3 amended: both builders produce exactly `cols+1` x-lines and `rows+1`
y-lines for every configuration; `part_001`'s builder (whose output then feeds
the separate compression transform) pins the first line to `0` and the last to
the canvas extent even after jitter, because the first line is never jittered
and the last is reset to the extent; the fresh sketch's builder does not pin
its boundary lines (its first line sits at the gutter offset plus jitter). -/
theorem C3_grid_builder_counts_and_bounds :
    (∀ (w h fx fy radius falloff strength : ℝ) (cols rows : ℕ) (jx jy : ℕ → ℝ),
      (Fresh2.buildGridX w h fx fy radius falloff strength cols jx).length = cols + 1 ∧
      (Fresh2.buildGridY w h fx fy radius falloff strength rows jy).length = rows + 1) ∧
    (∀ (w : ℝ) (cols : ℕ) (jitter : ℕ → ℝ), 1 ≤ cols →
      (Part1.buildGridLinesX w cols jitter).length = cols + 1 ∧
      (Part1.buildGridLinesX w cols jitter).getD 0 0 = 0 ∧
      (Part1.buildGridLinesX w cols jitter).getD cols 0 = w) ∧
    (∀ (w cx cy radius strength falloff : ℝ) (enable : Bool) (cols : ℕ) (jitter : ℕ → ℝ),
      (Part1.buildGridX w cx cy radius strength falloff enable cols jitter).length
        = cols + 1) := by
  refine ⟨?_, ?_, ?_⟩
  · intro w h fx fy radius falloff strength cols rows jx jy
    constructor
    · simp [Fresh2.buildGridX]
    · simp [Fresh2.buildGridY]
  · intro w cols jitter hcols
    refine ⟨Part1.buildGridLinesX_length w cols jitter, ?_, ?_⟩
    · unfold Part1.buildGridLinesX
      have hlen : (List.scanl
          (fun acc i => acc + (w - w * 0.08 * ((cols : ℝ) + 1)) / (cols : ℝ) + jitter i)
          0 (List.range cols)).length = cols + 1 := by
        simp [List.length_scanl]
      rw [List.getD_eq_getElem _ _ (by simp [List.length_scanl])]
      rw [List.getElem_set_ne (by omega : ¬ _ = _)]
      have h0 := getElem_scanl_zero
        (fun acc i => acc + (w - w * 0.08 * ((cols : ℝ) + 1)) / (cols : ℝ) + jitter i)
        (0 : ℝ) (List.range cols) (by simp [List.length_scanl])
      rw [List.getD_eq_getElem _ _ (by simp [List.length_scanl])] at h0
      exact h0
    · unfold Part1.buildGridLinesX
      rw [List.getD_eq_getElem _ _ (by simp [List.length_scanl])]
      have hidx : cols = (List.scanl
          (fun acc i => acc + (w - w * 0.08 * ((cols : ℝ) + 1)) / (cols : ℝ) + jitter i)
          0 (List.range cols)).length - 1 := by
        simp [List.length_scanl]
      rw [List.getElem_set]
      rw [if_pos (by simp [List.length_scanl])]
  · exact Part1.buildGridX_length

/-- Witness for the amended C3 with 2 columns / 3 rows and zero jitter. -/
theorem C3_grid_builder_counts_and_bounds_witness :
    ((Fresh2.buildGridX 800 1200 400 600 200 1 3 2 fun _ => 0).length = 3 ∧
      (Fresh2.buildGridY 800 1200 400 600 200 1 3 3 fun _ => 0).length = 4) ∧
    ((Part1.buildGridLinesX 800 2 fun _ => 0).length = 3 ∧
      (Part1.buildGridLinesX 800 2 fun _ => 0).getD 0 0 = 0 ∧
      (Part1.buildGridLinesX 800 2 fun _ => 0).getD 2 0 = 800) ∧
    (Part1.buildGridX 800 400 600 200 0.5 1.5 true 2 fun _ => 0).length = 3 :=
  ⟨C3_grid_builder_counts_and_bounds.1 800 1200 400 600 200 1 3 2 3
      (fun _ => 0) (fun _ => 0),
   C3_grid_builder_counts_and_bounds.2.1 800 2 (fun _ => 0) (by norm_num),
   C3_grid_builder_counts_and_bounds.2.2 800 400 600 200 0.5 1.5 true 2 fun _ => 0⟩

/-! ### Claim C1 -/

/-- C1 counterexample: in the fresh sketches the compression-factor function
returns `0.0`, not `1.0`, at normalized distance `≥ 1`.  Concretely, with the
first fresh sketch's configuration (radius 400, falloff 0.8), at distance 400
the normalized distance is `1` and the factor is `0`. -/
theorem C1_counterexample :
    1 ≤ Fresh1.compressionRadius / Fresh1.compressionRadius ∧
    Fresh1.getCompressionFactor Fresh1.compressionRadius Fresh1.compressionFalloff
      Fresh1.compressionRadius = 0 ∧
    Fresh1.getCompressionFactor Fresh1.compressionRadius Fresh1.compressionFalloff
      Fresh1.compressionRadius ≠ 1 := by
  have h1 : (1:ℝ) ≤ Fresh1.compressionRadius / Fresh1.compressionRadius := by
    norm_num [Fresh1.compressionRadius]
  have h0 : Fresh1.getCompressionFactor Fresh1.compressionRadius Fresh1.compressionFalloff
      Fresh1.compressionRadius = 0 := by
    unfold Fresh1.getCompressionFactor
    rw [if_pos h1]
  exact ⟨h1, h0, by rw [h0]; norm_num⟩

/-- C1 amended: the convention differs between variants.  In `part_001` the
factor is `1.0` (no change) at distance ≥ radius and attains `0.3`, the
extreme (minimal, i.e. strongest-compression) value of its range `[0.3, 1]`,
at distance 0.  In the fresh sketches the convention is inverted: the factor
is `0.0` (no change) at distance ≥ radius and attains the extreme (maximal)
value of its range at distance 0 — `0.4` in the first sketch and
`compressionStrength` in the second. -/
theorem C1_compression_factor_extremes :
    (∀ cx cy radius strength falloff x y : ℝ, 0 < radius →
        radius ≤ distPt x y cx cy →
        Part1.getCompressionFactor cx cy radius strength falloff x y = 1) ∧
    (∀ cx cy radius strength falloff : ℝ, strength ≠ 0 →
        Part1.getCompressionFactor cx cy radius strength falloff cx cy = 0.3 ∧
        ∀ x y : ℝ, 0.3 ≤ Part1.getCompressionFactor cx cy radius strength falloff x y) ∧
    (∀ radius falloff d : ℝ, 0 < radius →
        (radius ≤ d → Fresh1.getCompressionFactor radius falloff d = 0) ∧
        Fresh1.getCompressionFactor radius falloff 0 = 0.4 ∧
        (0 ≤ falloff → 0 ≤ d → Fresh1.getCompressionFactor radius falloff d ≤ 0.4)) ∧
    (∀ radius falloff strength d : ℝ, 0 < radius →
        (radius ≤ d → Fresh2.getCompressionFactor radius falloff strength d = 0) ∧
        Fresh2.getCompressionFactor radius falloff strength 0 = strength ∧
        (0 ≤ falloff → 0 ≤ d → 0 ≤ strength →
          Fresh2.getCompressionFactor radius falloff strength d ≤ strength)) := by
  refine ⟨?_, ?_, ?_, ?_⟩
  · intro cx cy radius strength falloff x y hr hd
    exact Part1.part1_factor_far hr hd
  · intro cx cy radius strength falloff hs
    exact ⟨Part1.part1_factor_center hs,
      fun x y => (Part1.part1_factor_mem cx cy radius strength falloff x y).1⟩
  · intro radius falloff d hr
    exact ⟨fun hd => Fresh1.fresh1_factor_far hr hd,
      Fresh1.fresh1_factor_zero falloff hr,
      fun hf hd => (Fresh1.fresh1_factor_mem hr hf hd).2⟩
  · intro radius falloff strength d hr
    exact ⟨fun hd => Fresh2.fresh2_factor_far hr hd,
      Fresh2.fresh2_factor_zero falloff strength hr,
      fun hf hd hs => (Fresh2.fresh2_factor_mem hr hf hd hs).2⟩

/-- Witness for the amended C1 at the configured values of the sketches. -/
theorem C1_compression_factor_extremes_witness :
    Part1.getCompressionFactor 100 100 50 0.5 1.5 200 100 = 1 ∧
    Part1.getCompressionFactor 100 100 50 0.5 1.5 100 100 = 0.3 ∧
    Fresh1.getCompressionFactor 400 0.8 0 = 0.4 ∧
    Fresh2.getCompressionFactor 200 1 3 0 = 3 := by
  have h1 := C1_compression_factor_extremes.1 100 100 50 0.5 1.5 200 100 (by norm_num)
  have h2 := (C1_compression_factor_extremes.2.1 100 100 50 0.5 1.5 (by norm_num)).1
  have h3 := (C1_compression_factor_extremes.2.2.1 400 0.8 0 (by norm_num)).2.1
  have h4 := (C1_compression_factor_extremes.2.2.2 200 1 3 0 (by norm_num)).2.1
  refine ⟨h1 ?_, h2, h3, h4⟩
  rw [distPt_same_y]
  norm_num

/-! ### Claim C4 -/

/-- C4 counterexample: the second fresh sketch's compression factor at
distance 0, with its configured strength 3, radius 200 and falloff 1, equals
3 and so does not lie in `[0, 1]`. -/
theorem C4_counterexample :
    Fresh2.getCompressionFactor Fresh2.compressionRadius Fresh2.compressionFalloff
      Fresh2.compressionStrength 0 = 3 ∧ ¬ ((3:ℝ) ≤ 1) := by
  constructor
  · unfold Fresh2.getCompressionFactor Fresh2.compressionRadius Fresh2.compressionFalloff
      Fresh2.compressionStrength
    rw [zero_div, if_neg (by norm_num), sub_zero, Real.one_rpow, mul_one]
  · norm_num

/-- C4 amended: `part_001`'s factor always lies in `[0.3, 1] ⊆ [0, 1]`, and the
first fresh sketch's factor lies in `[0, 0.4] ⊆ [0, 1]` (for nonnegative
distance and falloff and positive radius, which the sketch guarantees); the
second fresh sketch's factor instead ranges over `[0, compressionStrength]`,
which exceeds `[0, 1]` at small distances since its configured strength is 3. -/
theorem C4_compression_factor_bounds :
    (∀ cx cy radius strength falloff x y : ℝ,
        0 ≤ Part1.getCompressionFactor cx cy radius strength falloff x y ∧
        Part1.getCompressionFactor cx cy radius strength falloff x y ≤ 1) ∧
    (∀ radius falloff d : ℝ, 0 < radius → 0 ≤ falloff → 0 ≤ d →
        0 ≤ Fresh1.getCompressionFactor radius falloff d ∧
        Fresh1.getCompressionFactor radius falloff d ≤ 1) ∧
    (∀ radius falloff strength d : ℝ, 0 < radius → 0 ≤ falloff → 0 ≤ d → 0 ≤ strength →
        0 ≤ Fresh2.getCompressionFactor radius falloff strength d ∧
        Fresh2.getCompressionFactor radius falloff strength d ≤ strength) := by
  refine ⟨?_, ?_, ?_⟩
  · intro cx cy radius strength falloff x y
    obtain ⟨h1, h2⟩ := Part1.part1_factor_mem cx cy radius strength falloff x y
    exact ⟨by linarith, h2⟩
  · intro radius falloff d hr hf hd
    obtain ⟨h1, h2⟩ := Fresh1.fresh1_factor_mem hr hf hd
    exact ⟨h1, by linarith⟩
  · intro radius falloff strength d hr hf hd hs
    exact Fresh2.fresh2_factor_mem hr hf hd hs

/-- Witness for the amended C4 at concrete inputs. -/
theorem C4_compression_factor_bounds_witness :
    (0 ≤ Part1.getCompressionFactor 1 2 3 4 5 6 7 ∧
      Part1.getCompressionFactor 1 2 3 4 5 6 7 ≤ 1) ∧
    (0 ≤ Fresh1.getCompressionFactor 400 0.8 123 ∧
      Fresh1.getCompressionFactor 400 0.8 123 ≤ 1) ∧
    (0 ≤ Fresh2.getCompressionFactor 200 1 3 7 ∧
      Fresh2.getCompressionFactor 200 1 3 7 ≤ 3) :=
  ⟨C4_compression_factor_bounds.1 1 2 3 4 5 6 7,
   C4_compression_factor_bounds.2.1 400 0.8 123 (by norm_num) (by norm_num) (by norm_num),
   C4_compression_factor_bounds.2.2 200 1 3 7 (by norm_num) (by norm_num) (by norm_num)
     (by norm_num)⟩

/-! ### Claim C6 -/

/-- C6: for every stroke progress in `[0, length]` with positive length, the
pressure computed by `BrushPressure.calculate` lies between the two configured
bounds of `BrushPressure.min_max` (its second entry `0.9` is the lower bound
and its first entry `1.2` the upper — the code constrains with
`constrain(pressure, min_max[1], min_max[0])`), and so does the
Gaussian-perturbed `BrushPressure.gaussian` for every Gaussian sample. -/
theorem C6_brush_pressure_bounded (progress length : ℝ)
    (_hlen : 0 < length) (_h0 : 0 ≤ progress) (_h1 : progress ≤ length) :
    (BrushPressure.min_max.2 ≤ BrushPressure.calculate progress length ∧
      BrushPressure.calculate progress length ≤ BrushPressure.min_max.1) ∧
    ∀ g : ℝ,
      BrushPressure.min_max.2 ≤ BrushPressure.gaussian progress length g ∧
      BrushPressure.gaussian progress length g ≤ BrushPressure.min_max.1 := by
  unfold BrushPressure.calculate BrushPressure.gaussian
  refine ⟨⟨le_constrain _ _ _, constrain_le _ _ _ (by norm_num [BrushPressure.min_max])⟩,
    fun g => ⟨le_constrain _ _ _, constrain_le _ _ _ (by norm_num [BrushPressure.min_max])⟩⟩

/-- Witness for C6 at `progress = 1`, `length = 2`, Gaussian sample `5`. -/
theorem C6_brush_pressure_bounded_witness :
    (BrushPressure.min_max.2 ≤ BrushPressure.calculate 1 2 ∧
      BrushPressure.calculate 1 2 ≤ BrushPressure.min_max.1) ∧
    (BrushPressure.min_max.2 ≤ BrushPressure.gaussian 1 2 5 ∧
      BrushPressure.gaussian 1 2 5 ≤ BrushPressure.min_max.1) := by
  have h := C6_brush_pressure_bounded 1 2 (by norm_num) (by norm_num) (by norm_num)
  exact ⟨h.1, h.2 5⟩

/-! ### Claim C9 -/

/-- C9 counterexample: the claim asserts `random(min, max) ∈ [min, max)` for
all `min ≤ max`; at `min = max = 5` the code returns exactly `5`, which is not
in the empty half-open interval `[5, 5)`. -/
theorem C9_counterexample :
    (5:ℚ) ≤ 5 ∧ ((⟨1, 1⟩ : PRNG).random 5 5).2 = 5 ∧
      ¬ ((⟨1, 1⟩ : PRNG).random 5 5).2 < 5 := by
  refine ⟨le_refl 5, PRNG.random_same _ 5, ?_⟩
  rw [PRNG.random_same]
  exact lt_irrefl 5

/-- C9 amended: `next()` always yields a state below `2^32` and a value in
`[0, 1)`; `random(min, max)` lies in `[min, max)` whenever `min < max` and
returns exactly `min` when `min = max`; `randomInt` on integers `min ≤ max`
returns an integer in `[min, max]`; and `randomChoice` on a non-empty array
returns one of its elements. -/
theorem C9_prng_ranges :
    (∀ p : PRNG, ((p.next).1).state < 4294967296 ∧ 0 ≤ (p.next).2 ∧ (p.next).2 < 1) ∧
    (∀ (p : PRNG) (lo hi : ℚ), lo < hi →
      lo ≤ (p.random lo hi).2 ∧ (p.random lo hi).2 < hi) ∧
    (∀ (p : PRNG) (lo : ℚ), (p.random lo lo).2 = lo) ∧
    (∀ (p : PRNG) (lo hi : ℤ), lo ≤ hi →
      lo ≤ (p.randomInt lo hi).2 ∧ (p.randomInt lo hi).2 ≤ hi) ∧
    (∀ (α : Type) (p : PRNG) (arr : List α), arr ≠ [] →
      ∃ a ∈ arr, (p.randomChoice arr).2 = some a) := by
  refine ⟨?_, ?_, ?_, ?_, ?_⟩
  · exact fun p => ⟨PRNG.next_state_lt p, PRNG.next_val_nonneg p, PRNG.next_val_lt_one p⟩
  · exact fun p lo hi h => PRNG.random_mem h
  · exact fun p lo => PRNG.random_same p lo
  · exact fun p lo hi h => PRNG.randomInt_mem p lo hi h
  · exact fun α p arr h => PRNG.randomChoice_mem p arr h

/-- Witness for the amended C9 at concrete inputs. -/
theorem C9_prng_ranges_witness :
    ((0:ℚ) ≤ ((⟨1, 1⟩ : PRNG).random 0 10).2 ∧ ((⟨1, 1⟩ : PRNG).random 0 10).2 < 10) ∧
    ((1:ℤ) ≤ ((⟨1, 1⟩ : PRNG).randomInt 1 3).2 ∧ ((⟨1, 1⟩ : PRNG).randomInt 1 3).2 ≤ 3) ∧
    (∃ a ∈ [10, 20, 30], ((⟨1, 1⟩ : PRNG).randomChoice [10, 20, 30]).2 = some a) :=
  ⟨C9_prng_ranges.2.1 ⟨1, 1⟩ 0 10 (by norm_num),
   C9_prng_ranges.2.2.2.1 ⟨1, 1⟩ 1 3 (by norm_num),
   C9_prng_ranges.2.2.2.2 ℕ ⟨1, 1⟩ [10, 20, 30] (by simp)⟩

/-! ### Per-line characterizations of the compression transforms -/

namespace Part1

/-- With compression enabled, `part_001` replaces *every* line by
`lerp(x, cx, 1 - factor)` (with zero strength the factor is `1`, so the
formula still holds). -/
theorem part1_compress_getD (cx cy radius strength falloff : ℝ)
    (grid : List ℝ) (i : ℕ) (hi : i < grid.length) :
    (applyCompressionToGridX cx cy radius strength falloff true grid).getD i 0 =
      lerp (grid.getD i 0) cx
        (1 - getCompressionFactor cx cy radius strength falloff (grid.getD i 0) cy) := by
  unfold applyCompressionToGridX
  by_cases hs : strength = 0
  · rw [if_pos (Or.inr hs)]
    have hfac : getCompressionFactor cx cy radius strength falloff (grid.getD i 0) cy = 1 := by
      simp only [getCompressionFactor]
      rw [if_pos hs]
    rw [hfac, sub_self, lerp_zero]
  · rw [if_neg (by simp [hs])]
    rw [List.getD_eq_getElem _ _ (by simpa using hi), List.getElem_map,
      ← List.getD_eq_getElem _ _ hi]

/-- Lines at distance at least the radius are left unchanged. -/
theorem part1_compress_far (cx cy radius strength falloff : ℝ) (enable : Bool)
    (grid : List ℝ) (i : ℕ) (hr : 0 < radius) (hi : i < grid.length)
    (hd : radius ≤ distPt (grid.getD i 0) cy cx cy) :
    (applyCompressionToGridX cx cy radius strength falloff enable grid).getD i 0 =
      grid.getD i 0 := by
  unfold applyCompressionToGridX
  split
  · rfl
  · rw [List.getD_eq_getElem _ _ (by simpa using hi), List.getElem_map,
      ← List.getD_eq_getElem _ _ hi]
    rw [part1_factor_far hr hd, sub_self, lerp_zero]

/-- Every output line stays inside the canvas `[0, w]` as long as the input
line and the focal point do. -/
theorem part1_compress_bounded (cx cy radius strength falloff w : ℝ)
    (enable : Bool) (grid : List ℝ) (i : ℕ) (hi : i < grid.length)
    (hp0 : 0 ≤ grid.getD i 0) (hpw : grid.getD i 0 ≤ w) (hc0 : 0 ≤ cx) (hcw : cx ≤ w) :
    0 ≤ (applyCompressionToGridX cx cy radius strength falloff enable grid).getD i 0 ∧
    (applyCompressionToGridX cx cy radius strength falloff enable grid).getD i 0 ≤ w := by
  unfold applyCompressionToGridX
  split
  · exact ⟨hp0, hpw⟩
  · rw [List.getD_eq_getElem _ _ (by simpa using hi), List.getElem_map,
      ← List.getD_eq_getElem _ _ hi]
    obtain ⟨hf1, hf2⟩ := part1_factor_mem cx cy radius strength falloff
      (grid.getD i 0) cy
    obtain ⟨hlo, hhi⟩ := lerp_mem_Icc
      (by linarith : (0:ℝ) ≤ 1 - getCompressionFactor cx cy radius strength falloff
        (grid.getD i 0) cy)
      (by linarith)
    constructor
    · calc (0:ℝ) ≤ min (grid.getD i 0) cx := le_min hp0 hc0
        _ ≤ _ := hlo
    · calc _ ≤ max (grid.getD i 0) cx := hhi
        _ ≤ w := max_le hpw hcw

end Part1

namespace Fresh1

/-- Interior lines within the radius become `constrain(lerp(x, fx, factor), 20, w-20)`. -/
theorem fresh1_compress_getD_inside (w fx fy radius falloff : ℝ)
    (grid : List ℝ) (i : ℕ) (hi : i < grid.length) (h2 : 2 ≤ i)
    (h3 : i + 2 < grid.length)
    (hd : distPt (grid.getD i 0) fy fx fy < radius) :
    (applyCompressionToGridX w fx fy radius falloff grid).getD i 0 =
      constrain (lerp (grid.getD i 0) fx
        (getCompressionFactor radius falloff (distPt (grid.getD i 0) fy fx fy)))
        20 (w - 20) := by
  unfold applyCompressionToGridX
  rw [getD_mapIdx _ _ _ hi]
  rw [if_pos ⟨h2, h3, hd⟩]

/-- Lines at distance at least the radius are left unchanged. -/
theorem fresh1_compress_far (w fx fy radius falloff : ℝ)
    (grid : List ℝ) (i : ℕ) (hi : i < grid.length)
    (hd : radius ≤ distPt (grid.getD i 0) fy fx fy) :
    (applyCompressionToGridX w fx fy radius falloff grid).getD i 0 = grid.getD i 0 := by
  unfold applyCompressionToGridX
  rw [getD_mapIdx _ _ _ hi]
  rw [if_neg]
  rintro ⟨-, -, hlt⟩
  linarith

/-- A line the transform actually moves ends up inside the margins. -/
theorem fresh1_compress_moved (w fx fy radius falloff : ℝ) (hw : 40 ≤ w)
    (grid : List ℝ) (i : ℕ) (hi : i < grid.length)
    (hne : (applyCompressionToGridX w fx fy radius falloff grid).getD i 0 ≠ grid.getD i 0) :
    20 ≤ (applyCompressionToGridX w fx fy radius falloff grid).getD i 0 ∧
    (applyCompressionToGridX w fx fy radius falloff grid).getD i 0 ≤ w - 20 := by
  unfold applyCompressionToGridX at hne ⊢
  rw [getD_mapIdx _ _ _ hi] at hne ⊢
  by_cases hc : 2 ≤ i ∧ i + 2 < grid.length ∧ distPt (grid.getD i 0) fy fx fy < radius
  · rw [if_pos hc]
    exact ⟨le_constrain _ _ _, constrain_le _ _ _ (by linarith)⟩
  · rw [if_neg hc] at hne
    exact absurd rfl hne

end Fresh1

namespace Part2

/-- `part_002` moves every line *away* from the focal point:
`x + direction * abs(x - cx) * (1 - factor)` equals
`x + (x - cx) * (1 - factor)` in both direction cases. -/
theorem part2_compress_getD (cx cy radius strength falloff : ℝ)
    (grid : List ℝ) (i : ℕ) (hi : i < grid.length) :
    (applyCompressionToGridX cx cy radius strength falloff true grid).getD i 0 =
      grid.getD i 0 + (grid.getD i 0 - cx) *
        (1 - getCompressionFactor cx cy radius strength falloff (grid.getD i 0) cy) := by
  unfold applyCompressionToGridX
  by_cases hs : strength = 0
  · rw [if_pos (Or.inr hs)]
    have hfac : getCompressionFactor cx cy radius strength falloff (grid.getD i 0) cy = 1 := by
      simp only [getCompressionFactor]
      rw [if_pos hs]
    rw [hfac]
    ring
  · rw [if_neg (by simp [hs])]
    rw [List.getD_eq_getElem _ _ (by simpa using hi), List.getElem_map,
      ← List.getD_eq_getElem _ _ hi]
    by_cases hp : cx < grid.getD i 0
    · rw [if_pos hp, abs_of_nonneg (by linarith)]
      ring
    · rw [if_neg hp]
      push_neg at hp
      rw [abs_of_nonpos (by linarith)]
      ring

end Part2

/-! ### Claim C2 -/

/-- C2 counterexample: `part_002`'s transform does not compute
`lerp(x, focal, 1 - factor)`.  With focal x 100, radius 100, strength 0.97,
falloff 2 and the single line 110 (inside the radius, factor `0.001`), the
code produces `119.99` (pushing the line away), while
`lerp(110, 100, 1 - 0.001) = 100.01`. -/
theorem C2_counterexample :
    distPt 110 0 100 0 < 100 ∧
    (Part2.applyCompressionToGridX 100 0 100 0.97 2 true [110]).getD 0 0 = 119.99 ∧
    lerp 110 100 (1 - Part2.getCompressionFactor 100 0 100 0.97 2 110 0) = 100.01 ∧
    (119.99 : ℝ) ≠ 100.01 := by
  have hd : distPt 110 0 100 0 = 10 := by
    rw [distPt_same_y, abs_of_nonpos (by norm_num : (100:ℝ) - 110 ≤ 0)]
    norm_num
  have hfac : Part2.getCompressionFactor 100 0 100 0.97 2 110 0 = 0.001 := by
    simp only [Part2.getCompressionFactor]
    rw [if_neg (by norm_num), hd, if_neg (by norm_num), if_pos (by norm_num)]
  refine ⟨by rw [hd]; norm_num, ?_, ?_, by norm_num⟩
  · unfold Part2.applyCompressionToGridX
    rw [if_neg (by norm_num)]
    simp only [List.map_cons, List.map_nil, List.getD_cons_zero]
    rw [hfac, if_pos (by norm_num : (100:ℝ) < 110)]
    rw [abs_of_nonneg (by norm_num : (0:ℝ) ≤ 110 - 100)]
    norm_num
  · rw [hfac]
    unfold lerp
    norm_num

/-- C2 amended: only `part_001` computes `lerp(line, focal, 1 - factor)` (and
does so for every line, in particular those inside the radius).  The first
fresh sketch instead computes `constrain(lerp(line, focal, factor), 20, w-20)`
for interior lines inside the radius — its factor has the inverted
convention — and `part_002` moves each line *away* from the focal point, to
`line + (line - focal) * (1 - factor)`. -/
theorem C2_compression_transform_formulas :
    (∀ (cx cy radius strength falloff : ℝ) (grid : List ℝ) (i : ℕ), i < grid.length →
      (Part1.applyCompressionToGridX cx cy radius strength falloff true grid).getD i 0 =
        lerp (grid.getD i 0) cx
          (1 - Part1.getCompressionFactor cx cy radius strength falloff (grid.getD i 0) cy)) ∧
    (∀ (w fx fy radius falloff : ℝ) (grid : List ℝ) (i : ℕ),
      i < grid.length → 2 ≤ i → i + 2 < grid.length →
      distPt (grid.getD i 0) fy fx fy < radius →
      (Fresh1.applyCompressionToGridX w fx fy radius falloff grid).getD i 0 =
        constrain (lerp (grid.getD i 0) fx
          (Fresh1.getCompressionFactor radius falloff (distPt (grid.getD i 0) fy fx fy)))
          20 (w - 20)) ∧
    (∀ (cx cy radius strength falloff : ℝ) (grid : List ℝ) (i : ℕ), i < grid.length →
      (Part2.applyCompressionToGridX cx cy radius strength falloff true grid).getD i 0 =
        grid.getD i 0 + (grid.getD i 0 - cx) *
          (1 - Part2.getCompressionFactor cx cy radius strength falloff
            (grid.getD i 0) cy)) := by
  refine ⟨?_, ?_, ?_⟩
  · intro cx cy radius strength falloff grid i hi
    exact Part1.part1_compress_getD cx cy radius strength falloff grid i hi
  · intro w fx fy radius falloff grid i hi h2 h3 hd
    exact Fresh1.fresh1_compress_getD_inside w fx fy radius falloff grid i hi h2 h3 hd
  · intro cx cy radius strength falloff grid i hi
    exact Part2.part2_compress_getD cx cy radius strength falloff grid i hi

/-- Witness for the amended C2 at concrete inputs. -/
theorem C2_compression_transform_formulas_witness :
    ((Part1.applyCompressionToGridX 10 0 5 1 2 true [50]).getD 0 0 =
      lerp ([(50:ℝ)].getD 0 0) 10
        (1 - Part1.getCompressionFactor 10 0 5 1 2 ([(50:ℝ)].getD 0 0) 0)) ∧
    ((Fresh1.applyCompressionToGridX 800 0 0 1 0.8 [0, 0, 0, 0, 0]).getD 2 0 =
      constrain (lerp (([0, 0, 0, 0, 0] : List ℝ).getD 2 0) 0
        (Fresh1.getCompressionFactor 1 0.8
          (distPt (([0, 0, 0, 0, 0] : List ℝ).getD 2 0) 0 0 0))) 20 (800 - 20)) ∧
    ((Part2.applyCompressionToGridX 100 0 100 0.97 2 true [70]).getD 0 0 =
      ([(70:ℝ)].getD 0 0) + (([(70:ℝ)].getD 0 0) - 100) *
        (1 - Part2.getCompressionFactor 100 0 100 0.97 2 ([(70:ℝ)].getD 0 0) 0)) := by
  refine ⟨C2_compression_transform_formulas.1 10 0 5 1 2 [50] 0 (by norm_num),
    C2_compression_transform_formulas.2.1 800 0 0 1 0.8 [0, 0, 0, 0, 0] 2
      (by norm_num) (by norm_num) (by norm_num) ?_,
    C2_compression_transform_formulas.2.2 100 0 100 0.97 2 [70] 0 (by norm_num)⟩
  show distPt (([0, 0, 0, 0, 0] : List ℝ).getD 2 0) 0 0 0 < 1
  have : (([0, 0, 0, 0, 0] : List ℝ).getD 2 0) = 0 := rfl
  rw [this, distPt_self]
  norm_num

/-! ### Claim C5 -/

/-- C5: the compression transforms leave every line at distance ≥ radius at
its original position (hence the ordering among those lines is preserved), and
every line the fresh transform does move lands inside the canvas margins
`[20, w-20]`; `part_001`'s moved lines stay inside the canvas `[0, w]`
whenever the original line and the focal point are inside it. -/
theorem C5_compression_order_and_bounds :
    (∀ (w fx fy radius falloff : ℝ) (grid : List ℝ) (i : ℕ), i < grid.length →
      radius ≤ distPt (grid.getD i 0) fy fx fy →
      (Fresh1.applyCompressionToGridX w fx fy radius falloff grid).getD i 0 =
        grid.getD i 0) ∧
    (∀ (w fx fy radius falloff : ℝ) (grid : List ℝ) (i j : ℕ),
      i < grid.length → j < grid.length →
      radius ≤ distPt (grid.getD i 0) fy fx fy →
      radius ≤ distPt (grid.getD j 0) fy fx fy →
      grid.getD i 0 < grid.getD j 0 →
      (Fresh1.applyCompressionToGridX w fx fy radius falloff grid).getD i 0 <
        (Fresh1.applyCompressionToGridX w fx fy radius falloff grid).getD j 0) ∧
    (∀ (w fx fy radius falloff : ℝ) (grid : List ℝ) (i : ℕ), 40 ≤ w → i < grid.length →
      (Fresh1.applyCompressionToGridX w fx fy radius falloff grid).getD i 0 ≠
        grid.getD i 0 →
      20 ≤ (Fresh1.applyCompressionToGridX w fx fy radius falloff grid).getD i 0 ∧
      (Fresh1.applyCompressionToGridX w fx fy radius falloff grid).getD i 0 ≤ w - 20) ∧
    (∀ (cx cy radius strength falloff : ℝ) (enable : Bool) (grid : List ℝ) (i : ℕ),
      0 < radius → i < grid.length → radius ≤ distPt (grid.getD i 0) cy cx cy →
      (Part1.applyCompressionToGridX cx cy radius strength falloff enable grid).getD i 0 =
        grid.getD i 0) ∧
    (∀ (cx cy radius strength falloff w : ℝ) (enable : Bool) (grid : List ℝ) (i : ℕ),
      i < grid.length → 0 ≤ grid.getD i 0 → grid.getD i 0 ≤ w → 0 ≤ cx → cx ≤ w →
      0 ≤ (Part1.applyCompressionToGridX cx cy radius strength falloff enable grid).getD i 0 ∧
      (Part1.applyCompressionToGridX cx cy radius strength falloff enable grid).getD i 0
        ≤ w) := by
  refine ⟨?_, ?_, ?_, ?_, ?_⟩
  · intro w fx fy radius falloff grid i hi hd
    exact Fresh1.fresh1_compress_far w fx fy radius falloff grid i hi hd
  · intro w fx fy radius falloff grid i j hi hj hdi hdj hlt
    rw [Fresh1.fresh1_compress_far w fx fy radius falloff grid i hi hdi,
      Fresh1.fresh1_compress_far w fx fy radius falloff grid j hj hdj]
    exact hlt
  · intro w fx fy radius falloff grid i hw hi hne
    exact Fresh1.fresh1_compress_moved w fx fy radius falloff hw grid i hi hne
  · intro cx cy radius strength falloff enable grid i hr hi hd
    exact Part1.part1_compress_far cx cy radius strength falloff enable grid i hr hi hd
  · intro cx cy radius strength falloff w enable grid i hi hp0 hpw hc0 hcw
    exact Part1.part1_compress_bounded cx cy radius strength falloff w enable
      grid i hi hp0 hpw hc0 hcw

/-- Witness for C5 at concrete inputs (a far line is untouched, order among
far lines is preserved, a clamped line lands inside the margins, and
`part_001` keeps lines inside the canvas). -/
theorem C5_compression_order_and_bounds_witness :
    ((Fresh1.applyCompressionToGridX 800 9 0 2 0.8 [5]).getD 0 0 = [(5:ℝ)].getD 0 0) ∧
    ((Fresh1.applyCompressionToGridX 800 20 0 1 0.8 [5, 7]).getD 0 0 <
      (Fresh1.applyCompressionToGridX 800 20 0 1 0.8 [5, 7]).getD 1 0) ∧
    (20 ≤ (Fresh1.applyCompressionToGridX 800 0 0 1 0.8 [0, 0, 0, 0, 0]).getD 2 0 ∧
      (Fresh1.applyCompressionToGridX 800 0 0 1 0.8 [0, 0, 0, 0, 0]).getD 2 0 ≤ 800 - 20) ∧
    ((Part1.applyCompressionToGridX 9 0 2 1 2 true [5]).getD 0 0 = [(5:ℝ)].getD 0 0) ∧
    (0 ≤ (Part1.applyCompressionToGridX 9 0 2 1 2 true [5]).getD 0 0 ∧
      (Part1.applyCompressionToGridX 9 0 2 1 2 true [5]).getD 0 0 ≤ 10) := by
  have habs : ∀ a b : ℝ, 0 ≤ b - a → distPt a 0 b 0 = b - a := by
    intro a b h
    rw [distPt_same_y, abs_of_nonneg h]
  refine ⟨?_, ?_, ?_, ?_, ?_⟩
  · refine C5_compression_order_and_bounds.1 800 9 0 2 0.8 [5] 0 (by norm_num) ?_
    show (2:ℝ) ≤ distPt 5 0 9 0
    rw [habs 5 9 (by norm_num)]
    norm_num
  · refine C5_compression_order_and_bounds.2.1 800 20 0 1 0.8 [5, 7] 0 1
      (by norm_num) (by norm_num) ?_ ?_ (by norm_num)
    · show (1:ℝ) ≤ distPt 5 0 20 0
      rw [habs 5 20 (by norm_num)]
      norm_num
    · show (1:ℝ) ≤ distPt 7 0 20 0
      rw [habs 7 20 (by norm_num)]
      norm_num
  · refine C5_compression_order_and_bounds.2.2.1 800 0 0 1 0.8 [0, 0, 0, 0, 0] 2
      (by norm_num) (by norm_num) ?_
    have hchar := Fresh1.fresh1_compress_getD_inside 800 0 0 1 0.8
      [0, 0, 0, 0, 0] 2 (by norm_num) (by norm_num) (by norm_num) ?_
    · rw [hchar]
      have h0 : (([0, 0, 0, 0, 0] : List ℝ).getD 2 0) = 0 := rfl
      rw [h0, lerp_same]
      rw [constrain, min_eq_left (by norm_num), max_eq_right (by norm_num)]
      norm_num
    · have h0 : (([0, 0, 0, 0, 0] : List ℝ).getD 2 0) = 0 := rfl
      rw [h0, distPt_self]
      norm_num
  · refine C5_compression_order_and_bounds.2.2.2.1 9 0 2 1 2 true [5] 0
      (by norm_num) (by norm_num) ?_
    show (2:ℝ) ≤ distPt 5 0 9 0
    rw [habs 5 9 (by norm_num)]
    norm_num
  · exact C5_compression_order_and_bounds.2.2.2.2 9 0 2 1 2 10 true [5] 0
      (by norm_num) (by norm_num) (by norm_num) (by norm_num) (by norm_num)

/-! ### Claim C7 -/

/-- C7 counterexample: the density pass skips the first two and last three
lines, so *not* every cell whose midpoint is inside the compression radius
receives extra lines.  With `gridX = [0, 10, 20, 30, 40, 50]`, focal x `5`,
radius `10` and multiplier `8`, cell 0 = `[0, 10]` has its midpoint `5` at
distance `0` (inside the radius) and `floor(factor * 8) = 3`, yet the pass
inserts no line at all (the only considered cell, index 2, is outside the
radius), in particular none strictly between `0` and `10`. -/
theorem C7_counterexample :
    distPt (((0:ℝ) + 10) / 2) 0 5 0 < 10 ∧
    (⌊Fresh1.getCompressionFactor 10 0.8 (distPt (((0:ℝ) + 10) / 2) 0 5 0) *
      Fresh1.horizontalDensityMultiplier⌋).toNat = 3 ∧
    Fresh1.additionalLinesX 5 0 10 0.8 Fresh1.horizontalDensityMultiplier
      [0, 10, 20, 30, 40, 50] = [] := by
  have hm : ((0:ℝ) + 10) / 2 = 5 := by norm_num
  refine ⟨?_, ?_, ?_⟩
  · rw [hm, distPt_self]
    norm_num
  · rw [hm, distPt_self, Fresh1.fresh1_factor_zero 0.8 (by norm_num)]
    have hprod : (0.4:ℝ) * Fresh1.horizontalDensityMultiplier = 3.2 := by
      norm_num [Fresh1.horizontalDensityMultiplier]
    rw [hprod]
    have hf : ⌊(3.2:ℝ)⌋ = 3 := by
      rw [Int.floor_eq_iff]
      constructor <;> norm_num
    rw [hf]
    rfl
  · unfold Fresh1.additionalLinesX
    have hflt : ((List.range ([0, 10, 20, 30, 40, 50] : List ℝ).length).filter
        fun i => 2 ≤ i ∧ i + 3 < ([0, 10, 20, 30, 40, 50] : List ℝ).length) = [2] := by
      rfl
    rw [hflt]
    simp only [List.flatMap_cons, List.flatMap_nil, List.append_nil]
    have h2 : (([0, 10, 20, 30, 40, 50] : List ℝ).getD 2 0) = 20 := rfl
    have h3 : (([0, 10, 20, 30, 40, 50] : List ℝ).getD 3 0) = 30 := rfl
    rw [h2, h3]
    simp only [Fresh1.extraLinesForCell]
    rw [if_neg]
    push_neg
    have hm2 : ((20:ℝ) + 30) / 2 = 25 := by norm_num
    rw [hm2, distPt_same_y, abs_of_nonpos (by norm_num : (5:ℝ) - 25 ≤ 0)]
    norm_num

/-- C7 amended: for every cell the density loop actually considers (index `i`
with `2 ≤ i < length - 3`) whose midpoint lies inside the compression radius,
exactly `floor(factor * densityMultiplier)` extra lines are created, each at
`lerp(x1, x2, j/(count+1))` and hence strictly between the cell's two bounding
lines; the extra lines are appended and the array is sorted ascending, and
only after that sort is the compression transform applied.  The same holds for
`gridY` with the vertical multiplier. -/
theorem C7_density_insertion :
    (∀ (fx fy radius falloff mult : ℝ) (grid : List ℝ) (i : ℕ),
      2 ≤ i → i + 3 < grid.length →
      distPt ((grid.getD i 0 + grid.getD (i + 1) 0) / 2) fy fx fy < radius →
      (Fresh1.extraLinesForCell fx fy radius falloff mult
          (grid.getD i 0) (grid.getD (i + 1) 0)).length =
        (⌊Fresh1.getCompressionFactor radius falloff
          (distPt ((grid.getD i 0 + grid.getD (i + 1) 0) / 2) fy fx fy) * mult⌋).toNat) ∧
    (∀ (fx fy radius falloff mult x1 x2 : ℝ), x1 < x2 →
      ∀ z ∈ Fresh1.extraLinesForCell fx fy radius falloff mult x1 x2,
        x1 < z ∧ z < x2) ∧
    (∀ (fx fy radius falloff mult : ℝ) (grid : List ℝ),
      (Fresh1.densityGridX fx fy radius falloff mult grid).Sorted (· ≤ ·)) ∧
    (∀ (fx fy radius falloff mult : ℝ) (grid : List ℝ),
      (Fresh1.densityGridY fx fy radius falloff mult grid).Sorted (· ≤ ·)) ∧
    (∀ (fx fy radius falloff mult : ℝ) (grid : List ℝ),
      (Fresh1.densityGridX fx fy radius falloff mult grid).Perm
        (grid ++ Fresh1.additionalLinesX fx fy radius falloff mult grid)) ∧
    (∀ (w fx fy radius falloff mult : ℝ) (grid : List ℝ),
      Fresh1.applyCompressionDensityX w fx fy radius falloff mult grid =
        Fresh1.applyCompressionToGridX w fx fy radius falloff
          (Fresh1.densityGridX fx fy radius falloff mult grid)) := by
  refine ⟨?_, ?_, ?_, ?_, ?_, ?_⟩
  · intro fx fy radius falloff mult grid i _h2 _h3 hd
    simp only [Fresh1.extraLinesForCell]
    rw [if_pos hd]
    simp
  · intro fx fy radius falloff mult x1 x2 hx z hz
    simp only [Fresh1.extraLinesForCell] at hz
    by_cases hd : distPt ((x1 + x2) / 2) fy fx fy < radius
    · rw [if_pos hd] at hz
      obtain ⟨j, hj, rfl⟩ := List.mem_map.mp hz
      rw [List.mem_range] at hj
      set c := (⌊Fresh1.getCompressionFactor radius falloff
        (distPt ((x1 + x2) / 2) fy fx fy) * mult⌋).toNat with hc
      have hj1 : (1:ℝ) ≤ (j:ℝ) + 1 := by
        have : (0:ℝ) ≤ (j:ℝ) := Nat.cast_nonneg j
        linarith
      have hjc : (j:ℝ) + 1 ≤ (c:ℝ) := by
        have : (j:ℝ) + 1 ≤ (c:ℝ) := by exact_mod_cast hj
        linarith
      have hc1 : (0:ℝ) < (c:ℝ) + 1 := by positivity
      have ht0 : 0 < ((j:ℝ) + 1) / ((c:ℝ) + 1) := by positivity
      have ht1 : ((j:ℝ) + 1) / ((c:ℝ) + 1) < 1 := by
        rw [div_lt_one hc1]
        linarith
      unfold lerp
      constructor
      · nlinarith
      · nlinarith
    · rw [if_neg hd] at hz
      exact absurd hz (List.not_mem_nil z)
  · intro fx fy radius falloff mult grid
    exact List.sorted_insertionSort _ _
  · intro fx fy radius falloff mult grid
    exact List.sorted_insertionSort _ _
  · intro fx fy radius falloff mult grid
    exact List.perm_insertionSort _ _
  · intro w fx fy radius falloff mult grid
    rfl

/-- Witness for the amended C7: the considered cell `[20, 30]` with focal x 25
(distance 0, factor 0.4, multiplier 8) receives exactly 3 extra lines; with
multiplier 2.5 the single inserted line of cell `[0, 10]` (focal x 5) is `5`,
strictly between the bounds; and insertion-then-sort precedes compression. -/
theorem C7_density_insertion_witness :
    (Fresh1.extraLinesForCell 25 0 10 0.8 8
        (([0, 10, 20, 30, 40, 50] : List ℝ).getD 2 0)
        (([0, 10, 20, 30, 40, 50] : List ℝ).getD 3 0)).length = 3 ∧
    ((0:ℝ) < 5 ∧ (5:ℝ) < 10) ∧
    Fresh1.applyCompressionDensityX 800 25 0 10 0.8 8 [0, 10, 20, 30, 40, 50] =
      Fresh1.applyCompressionToGridX 800 25 0 10 0.8
        (Fresh1.densityGridX 25 0 10 0.8 8 [0, 10, 20, 30, 40, 50]) := by
  have h2 : (([0, 10, 20, 30, 40, 50] : List ℝ).getD 2 0) = 20 := rfl
  have h3 : (([0, 10, 20, 30, 40, 50] : List ℝ).getD 3 0) = 30 := rfl
  have hm : (((([0, 10, 20, 30, 40, 50] : List ℝ).getD 2 0) +
      (([0, 10, 20, 30, 40, 50] : List ℝ).getD 3 0)) / 2) = 25 := by
    rw [h2, h3]
    norm_num
  refine ⟨?_, ?_, ?_⟩
  · have hlen := C7_density_insertion.1 25 0 10 0.8 8 [0, 10, 20, 30, 40, 50] 2
      (by norm_num) (by norm_num) ?_
    · rw [hlen, hm, distPt_self, Fresh1.fresh1_factor_zero 0.8 (by norm_num)]
      have hprod : (0.4:ℝ) * 8 = 3.2 := by norm_num
      rw [hprod]
      have hf : ⌊(3.2:ℝ)⌋ = 3 := by
        rw [Int.floor_eq_iff]
        constructor <;> norm_num
      rw [hf]
      rfl
    · rw [hm, distPt_self]
      norm_num
  · refine C7_density_insertion.2.1 5 0 10 0.8 2.5 0 10 (by norm_num) 5 ?_
    have hd : distPt (((0:ℝ) + 10) / 2) 0 5 0 = 0 := by
      rw [show ((0:ℝ) + 10) / 2 = 5 by norm_num, distPt_self]
    have hcount : (⌊Fresh1.getCompressionFactor 10 0.8
        (distPt (((0:ℝ) + 10) / 2) 0 5 0) * 2.5⌋).toNat = 1 := by
      rw [hd, Fresh1.fresh1_factor_zero 0.8 (by norm_num)]
      rw [show (0.4:ℝ) * 2.5 = 1 by norm_num]
      rw [show ⌊(1:ℝ)⌋ = 1 from Int.floor_one]
      rfl
    simp only [Fresh1.extraLinesForCell]
    rw [if_pos (by rw [hd]; norm_num)]
    rw [hcount]
    rw [show List.range 1 = [0] from rfl]
    simp only [List.map_cons, List.map_nil, List.mem_singleton]
    unfold lerp
    norm_num
  · exact C7_density_insertion.2.2.2.2.2 800 25 0 10 0.8 8 [0, 10, 20, 30, 40, 50]

/-! ### Claim C10 -/

end Clown
